import Mathlib

/-!
Verification development for the voice-transcribe daemon
(src/voice-transcribe.c).  The C program is shallowly embedded below:
pure helpers become Lean functions, the capture loop becomes a fold over
an explicit list of per-iteration inputs, and the file-system / process
state touched by the single-instance controller becomes an explicit
state record.  Machine integers are modelled by Nat/Int; the audio level
arithmetic (exact in 32-bit floats for 16-bit samples divided by 2^15)
is modelled by ℚ.  The concurrently running monitor thread writes only
`RECORDING|level|MM:SS` records; its writes are modelled by
`monitorWrite` rather than interleaved into the main trace.
-/

namespace VoiceTranscribe

/-! ## Growable audio buffer (`AudioBuffer`, lines 28-91) -/

/-- `AudioBuffer` from the C source: a byte region with `size` (bytes used)
and `capacity` (bytes allocated).  The stored bytes are modelled as a list
of integers. -/
structure AudioBuffer where
  data : List Int
  size : Nat
  capacity : Nat
deriving DecidableEq, Repr

/-- `init_audio_buffer`: fresh buffer with `size = 0` and the requested
capacity (the C `malloc` region starts uninitialised, so no bytes). -/
def init_audio_buffer (initial : Nat) : AudioBuffer :=
  { data := [], size := 0, capacity := initial }

/-- The doubling loop of `append_audio_buffer`
(`while (new_capacity < buf->size + size) new_capacity *= 2;`),
written with explicit fuel so that it is executable by the kernel.
Fuel `need` always suffices when the running capacity is positive, since
the capacity at least doubles every step (`growLoopFuel_spec` below);
for capacity `0` the C loop would not terminate at all, a situation the
program never creates (`init_audio_buffer` is called with 320000). -/
def growLoopFuel : Nat → Nat → Nat → Nat
  | 0, c, _ => c
  | fuel + 1, c, need => if c < need then growLoopFuel fuel (c * 2) need else c

/-- The new capacity computed by `append_audio_buffer` when growing:
start from the current capacity and double until the data fits. -/
def growLoop (c need : Nat) : Nat :=
  growLoopFuel need c need

/-- `append_audio_buffer` (lines 71-84).  `allocOk` models whether the
`realloc` call succeeds; on failure the function returns with the buffer
untouched.  The C caller passes the byte count separately but always
passes the length of the copied region, so `d.length` plays that role. -/
def append_audio_buffer (allocOk : Bool) (buf : AudioBuffer) (d : List Int) : AudioBuffer :=
  if buf.size + d.length > buf.capacity then
    if allocOk then
      { data := buf.data ++ d
        size := buf.size + d.length
        capacity := growLoop (buf.capacity * 2) (buf.size + d.length) }
    else buf
  else
    { data := buf.data ++ d, size := buf.size + d.length, capacity := buf.capacity }

/-- A sequence of appends, every reallocation succeeding. -/
def appendAll (buf : AudioBuffer) (blocks : List (List Int)) : AudioBuffer :=
  blocks.foldl (fun b d => append_audio_buffer true b d) buf

/-- Buffer invariant relative to the initial capacity: `size` counts the
stored bytes, fits in `capacity`, and `capacity` is `initCap` times a
power of two. -/
def bufInv (initCap : Nat) (b : AudioBuffer) : Prop :=
  b.size = b.data.length ∧ b.size ≤ b.capacity ∧ ∃ k, b.capacity = initCap * 2 ^ k

/-! ## JSON text-field extraction (`transcribe_audio`, lines 457-488) -/

/-- Whether `pat` is a prefix of `s` (the position test inside `strstr`). -/
def leadsWith : List Char → List Char → Bool
  | [], _ => true
  | _ :: _, [] => false
  | p :: ps, c :: cs => p == c && leadsWith ps cs

/-- `strstr` followed by skipping the pattern: the suffix of `s` after the
first occurrence of `pat`, or `none` when `pat` (nonempty) does not occur. -/
def afterMarker (pat : List Char) : List Char → Option (List Char)
  | [] => none
  | c :: rest =>
    if leadsWith pat (c :: rest) then some ((c :: rest).drop pat.length)
    else afterMarker pat rest

/-- The marker scanned for by `transcribe_audio`: the eight characters of
the C literal for quote-t-e-x-t-quote-colon-quote. -/
def textMarker : List Char := ['"', 't', 'e', 'x', 't', '"', ':', '"']

/-- `strchr(text_start, quote)` and the `memcpy` of everything before it:
the raw field is everything up to the first double quote. -/
def takeToQuote (l : List Char) : List Char := l.takeWhile (fun c => c ≠ '"')

/-- One step of the in-place unescape switch: after a backslash, `n`, `t`
and `r` map to the control characters; the C `case` arms for quote and
backslash output the character itself, exactly like the `default` arm, so
every other character maps to itself. -/
def unescChar (c : Char) : Char :=
  if c = 'n' then '\n'
  else if c = 't' then '\t'
  else if c = 'r' then '\r'
  else c

/-- The in-place unescape loop of `transcribe_audio` (lines 469-486): a
backslash followed by a character consumes both and emits `unescChar`; a
trailing lone backslash is copied verbatim (the C guard `*(src+1)`). -/
def unescape : List Char → List Char
  | [] => []
  | c :: rest =>
    if c = '\\' then
      match rest with
      | [] => [c]
      | c2 :: rest2 => unescChar c2 :: unescape rest2
    else c :: unescape rest

/-- Raw text-field extraction: locate the marker (`strstr` not NULL),
require a closing quote (`strchr` not NULL), and take the characters
before it. -/
def extractRaw (resp : List Char) : Option (List Char) :=
  (afterMarker textMarker resp).bind fun rest =>
    if rest.contains '"' then some (takeToQuote rest) else none

/-- Full extraction performed by `transcribe_audio` on the response body:
raw scan then unescape.  `none` models the `-1` return (no result). -/
def extractL (resp : List Char) : Option (List Char) :=
  (extractRaw resp).map unescape

/-- String-level wrapper of `extractL`. -/
def extract (resp : String) : Option String :=
  (extractL resp.toList).map fun l => String.mk l

/-- JSON escaping of a single text character, as a transcription backend
produces it; this is the claim-side encoder used to state the round-trip
properties (the C program only ever decodes). -/
def encodeChar (c : Char) : List Char :=
  if c = '\n' then ['\\', 'n']
  else if c = '\t' then ['\\', 't']
  else if c = '\r' then ['\\', 'r']
  else if c = '"' then ['\\', '"']
  else if c = '\\' then ['\\', '\\']
  else [c]

/-- JSON escaping of a whole text value. -/
def encodeText (t : List Char) : List Char := t.flatMap encodeChar

/-! ## Status channel (`update_status`, lines 93-102) -/

/-- One status record handed to `update_status`: the status string, the
level passed (a float in the C source, exact here as ℚ), and the elapsed
seconds `time(NULL) - g_record_start_time` at the write. -/
structure StatusRec where
  status : String
  level : ℚ
  elapsed : Nat
deriving DecidableEq, Repr

/-- Two-digit zero padding, as `%02ld`. -/
def pad2 (n : Nat) : String := if n < 10 then "0" ++ toString n else toString n

/-- The `MM:SS` field: `elapsed / 60` and `elapsed % 60`, each `%02ld`. -/
def fmtMMSS (e : Nat) : String := pad2 (e / 60) ++ ":" ++ pad2 (e % 60)

/-- `%.2f` for a level in `[0,1]`: round to hundredths and print with one
integer digit and exactly two fractional digits.  (Rounding of exact
halves is modelled as round-half-up; printf rounds exact halves to even,
which differs only on inputs of the form `k/2^12 · 2^-3`, and no claim
depends on which digit a tie produces.) -/
def fmt2 (q : ℚ) : String :=
  if (⌊q * 100 + 1 / 2⌋).toNat ≥ 100 then "1.00"
  else String.mk ['0', '.', Nat.digitChar ((⌊q * 100 + 1 / 2⌋).toNat / 10),
                  Nat.digitChar ((⌊q * 100 + 1 / 2⌋).toNat % 10)]

/-- The single line produced by the `fprintf` in `update_status`:
`STATUS|level|MM:SS` and a newline. -/
def render (r : StatusRec) : String :=
  r.status ++ "|" ++ fmt2 r.level ++ "|" ++ fmtMMSS r.elapsed ++ "\n"

/-- `update_status` acting on the status-file contents: seek to the start,
write the line over the old contents, then truncate at the write position
(`ftruncate(fileno, ftell)`). -/
def update_status (old : List Char) (r : StatusRec) : List Char :=
  let line := (render r).toList
  (line ++ old.drop line.length).take line.length

/-- The ten status tokens named by the external status-channel contract. -/
def statusTokens : List String :=
  ["CONNECTING", "READY", "RECORDING", "PROCESSING", "UPLOADING",
   "COPIED", "FAILED", "NO_AUDIO", "MAX_TIME", "ERROR"]

/-- The record written by each iteration of the monitor thread
(`update_status("RECORDING", g_current_level)`, line 287). -/
def monitorWrite (lvl : ℚ) (e : Nat) : StatusRec :=
  { status := "RECORDING", level := lvl, elapsed := e }

/-- The shape "decimal in [0,1] with exactly two fractional digits". -/
def twoFracDecimal (s : String) : Prop :=
  s = "1.00" ∨ ∃ a b : Fin 10, s = String.mk ['0', '.', Nat.digitChar a, Nat.digitChar b]

/-! ## Level metric and capture loop (`recording_thread`, lines 299-365) -/

/-- The per-frame level computation (lines 354-359): running maximum over
the frame of `fabsf(sample / 32768.0f)`, started from `0.0`.  All these
float operations are exact for 16-bit samples, so ℚ models them exactly. -/
def frameLevel (frame : List Int) : ℚ :=
  frame.foldl (fun (m : ℚ) (s : ℤ) => max m (|(s : ℚ)| / 32768)) 0

/-- The maximum absolute sample value of a frame. -/
def maxAbsSample (frame : List Int) : Nat :=
  frame.foldl (fun m s => max m s.natAbs) 0

/-- `g_current_level` after one loop iteration: recomputed from the frame
when a frame was read (`frames > 0`), untouched otherwise. -/
def updatedLevel (prev : ℚ) (read : Option (List Int)) : ℚ :=
  match read with
  | some f => frameLevel f
  | none => prev

/-- The two little-endian bytes of each signed 16-bit sample, as appended
by `append_audio_buffer(&g_audio_buffer, buffer, frames * 2)`. -/
def bytesOfSamples (f : List Int) : List Int :=
  f.flatMap fun s => [s.emod 256, (s.tdiv 256).emod 256]

/-- The environment of one capture-loop iteration: the value of
`g_stop_recording` at the loop test, `time(NULL)`, the result of
`snd_pcm_readi` after recovery (`some samples` iff `frames > 0`), and
whether a `realloc` needed by the append would succeed. -/
structure CaptureInput where
  stop : Bool
  now : Nat
  read : Option (List Int)
  allocOk : Bool
deriving Repr

/-- The capture loop (lines 339-361) over an explicit list of iteration
environments.  Returns the status records the loop itself writes, the
final buffer, the final `g_current_level`, and whether the loop ended
through the `MAX_RECORDING_TIME` (300 s) ceiling.  Running out of inputs
models the stop flag being set between iterations. -/
def captureLoop (start : Nat) :
    List CaptureInput → AudioBuffer → ℚ → List StatusRec × AudioBuffer × ℚ × Bool
  | [], buf, lvl => ([], buf, lvl, false)
  | i :: rest, buf, lvl =>
    if i.stop then ([], buf, lvl, false)
    else if i.now - start > 300 then
      ([{ status := "MAX_TIME", level := 0, elapsed := i.now - start }], buf, lvl, true)
    else
      match i.read with
      | some f =>
        captureLoop start rest (append_audio_buffer i.allocOk buf (bytesOfSamples f))
          (updatedLevel lvl (some f))
      | none => captureLoop start rest buf (updatedLevel lvl none)

/-- The device paths `recording_thread` attempts, in order: the direct
hardware path always, the default path only when the first open failed. -/
def devicePathsTried (hwOk : Bool) : List String :=
  if hwOk then ["plughw:0,0"] else ["plughw:0,0", "default"]

/-- Which device ends up open: the hardware path when it succeeds, else
the default path when that succeeds, else none. -/
def openDevice (hwOk defaultOk : Bool) : Option String :=
  if hwOk then some "plughw:0,0"
  else if defaultOk then some "default"
  else none

/-- The zero-initialised global `g_audio_buffer` before any init. -/
def emptyBuffer : AudioBuffer := { data := [], size := 0, capacity := 0 }

/-- Result of the recording thread: its status writes in order, the final
audio buffer, the final level, and the timeout flag. -/
structure ThreadResult where
  trace : List StatusRec
  buf : AudioBuffer
  level : ℚ
  timedOut : Bool
deriving Repr

/-- `recording_thread`: open with fallback; on double failure write the
device-failure record and return with the global buffer untouched; on a
hardware-parameter failure return silently; otherwise init the buffer to
`SAMPLE_RATE * 2 * 10 = 320000` bytes, write READY then RECORDING (with
`now0` the wall time of these writes), and run the capture loop. -/
def recordingThread (hwOk defaultOk paramsOk : Bool) (start now0 : Nat)
    (inputs : List CaptureInput) : ThreadResult :=
  match openDevice hwOk defaultOk with
  | none =>
    { trace := [{ status := "ERROR: Audio device failed", level := 0, elapsed := now0 - start }]
      buf := emptyBuffer, level := 0, timedOut := false }
  | some _ =>
    if paramsOk then
      let r := captureLoop start inputs (init_audio_buffer 320000) 0
      { trace := { status := "READY", level := 0, elapsed := now0 - start }
          :: { status := "RECORDING", level := 0, elapsed := now0 - start } :: r.1
        buf := r.2.1, level := r.2.2.1, timedOut := r.2.2.2 }
    else { trace := [], buf := emptyBuffer, level := 0, timedOut := false }

/-! ## The daemon session (`main`, lines 608-672) -/

/-- Parameters of one daemon session (the child process after the fork):
device-open and hw-params outcomes, the start wall time, the wall time of
the early thread status writes, the wall time of the finalize writes, the
capture iterations, and the HTTP response body (`none` = transport
failure). -/
structure RunParams where
  hwOk : Bool
  defaultOk : Bool
  paramsOk : Bool
  start : Nat
  now0 : Nat
  endNow : Nat
  inputs : List CaptureInput
  response : Option String

/-- Observable outcome of one daemon session. -/
structure DaemonResult where
  trace : List StatusRec
  buf : AudioBuffer
  uploaded : Bool
  clipboard : Option String
  exitCode : Nat
  pathsTried : List String

/-- The child-process path of `main` after the fork: CONNECTING, the
recording thread's writes, PROCESSING, then either NO_AUDIO (empty
buffer, no upload) or UPLOADING followed by COPIED / FAILED according to
whether `transcribe_audio` produced a (possibly empty) result string.
The local `mkstemps` / `curl_easy_init` / `malloc` calls are assumed to
succeed; the monitor thread's concurrent writes are modelled separately
by `monitorWrite`. -/
def daemonRun (p : RunParams) : DaemonResult :=
  let r := recordingThread p.hwOk p.defaultOk p.paramsOk p.start p.now0 p.inputs
  let e := p.endNow - p.start
  let head : List StatusRec :=
    { status := "CONNECTING", level := 0, elapsed := 0 }
      :: r.trace ++ [{ status := "PROCESSING", level := 0, elapsed := e }]
  if r.buf.size > 0 then
    match p.response.bind extract with
    | some t =>
      { trace := head ++ [{ status := "UPLOADING", level := 0, elapsed := e },
                          { status := "COPIED", level := 0, elapsed := e }]
        buf := r.buf, uploaded := true, clipboard := some t, exitCode := 0
        pathsTried := devicePathsTried p.hwOk }
    | none =>
      { trace := head ++ [{ status := "UPLOADING", level := 0, elapsed := e },
                          { status := "FAILED", level := 0, elapsed := e }]
        buf := r.buf, uploaded := true, clipboard := none, exitCode := 0
        pathsTried := devicePathsTried p.hwOk }
  else
    { trace := head ++ [{ status := "NO_AUDIO", level := 0, elapsed := e }]
      buf := r.buf, uploaded := false, clipboard := none, exitCode := 0
      pathsTried := devicePathsTried p.hwOk }

/-- The sequence of status tokens the session writes. -/
def statuses (p : RunParams) : List String :=
  (daemonRun p).trace.map (fun r => r.status)

/-- The recording thread's status writes within a session. -/
def capTrace (p : RunParams) : List StatusRec :=
  (recordingThread p.hwOk p.defaultOk p.paramsOk p.start p.now0 p.inputs).trace

/-- The recording thread's status tokens within a session. -/
def capStatuses (p : RunParams) : List String :=
  (capTrace p).map (fun r => r.status)

/-- The audio buffer as it stands when the recording thread is joined. -/
def capBuf (p : RunParams) : AudioBuffer :=
  (recordingThread p.hwOk p.defaultOk p.paramsOk p.start p.now0 p.inputs).buf

/-- A session that captures one frame and receives a response whose text
field is the empty string. -/
def c2RunParams : RunParams :=
  { hwOk := true, defaultOk := true, paramsOk := true,
    start := 0, now0 := 0, endNow := 1,
    inputs := [{ stop := false, now := 0, read := some [100], allocOk := true }],
    response := some "\x7b\"text\":\"\"\x7d" }

/-- A session whose single capture iteration sees elapsed time 400 s. -/
def c5RunParams : RunParams :=
  { hwOk := true, defaultOk := true, paramsOk := true,
    start := 0, now0 := 0, endNow := 400,
    inputs := [{ stop := false, now := 400, read := none, allocOk := true }],
    response := none }

/-- A session in which both device opens fail. -/
def c6RunParams : RunParams :=
  { hwOk := false, defaultOk := false, paramsOk := true,
    start := 0, now0 := 0, endNow := 0, inputs := [], response := none }

/-- A second both-opens-fail session, used for the status-token analysis. -/
def c7RunParams : RunParams :=
  { hwOk := false, defaultOk := false, paramsOk := true,
    start := 0, now0 := 2, endNow := 3, inputs := [], response := none }

/-! ## Single-instance controller (`check_running` and the top of `main`) -/

/-- The file-system / process state the controller interacts with: the
identity (PID) file contents and process liveness (`kill(pid, 0)`). -/
structure SysState where
  pidfile : Option Nat
  alive : Nat → Bool

/-- `check_running` (lines 540-556): no file means not running; a live
recorded pid is returned; a dead recorded pid gets the stale file
unlinked and reports not running. -/
def check_running (s : SysState) : SysState × Nat :=
  match s.pidfile with
  | none => (s, 0)
  | some pid =>
    if s.alive pid then (s, pid)
    else ({ s with pidfile := none }, 0)

/-- Outcome of one invocation of `main` up to the fork: the final identity
file contents, the pids sent SIGUSR1, whether a capture session was
started, and the invoking process's exit code. -/
structure StartResult where
  pidfile : Option Nat
  signals : List Nat
  captured : Bool
  exitCode : Nat
deriving DecidableEq, Repr

/-- The top of `main` (lines 558-606): challenge a running instance and
exit, or proceed as owner — load the key (on failure unlink the identity
file and exit 1), fork (parent writes the child's pid into the identity
file), and let the child run the session. -/
def mainStart (s : SysState) (apiKeyOk forkOk : Bool) (childPid : Nat) : StartResult :=
  let c := check_running s
  if c.2 > 0 then
    { pidfile := c.1.pidfile, signals := [c.2], captured := false, exitCode := 0 }
  else if ¬ apiKeyOk then
    { pidfile := none, signals := [], captured := false, exitCode := 1 }
  else if ¬ forkOk then
    { pidfile := c.1.pidfile, signals := [], captured := false, exitCode := 1 }
  else
    { pidfile := some childPid, signals := [], captured := true, exitCode := 0 }

/-! ## Lemmas about the buffer growth loop -/

theorem growLoopFuel_spec :
    ∀ (fuel c need : Nat), 0 < c → need ≤ c * 2 ^ fuel →
      ∃ k, growLoopFuel fuel c need = c * 2 ^ k ∧ need ≤ c * 2 ^ k ∧
        (k = 0 ∨ c * 2 ^ k < 2 * need) := by
  intro fuel
  induction fuel with
  | zero =>
    intro c need hc h
    exact ⟨0, by simp [growLoopFuel], by simpa using h, Or.inl rfl⟩
  | succ f ih =>
    intro c need hc h
    by_cases hlt : c < need
    · have h2 : need ≤ c * 2 * 2 ^ f := by
        have e : c * 2 * 2 ^ f = c * 2 ^ (f + 1) := by ring
        rw [e]; exact h
      obtain ⟨k, hk, hn, hm⟩ := ih (c * 2) need (by omega) h2
      refine ⟨k + 1, ?_, ?_, Or.inr ?_⟩
      · rw [growLoopFuel, if_pos hlt, hk]; ring
      · have e : c * 2 ^ (k + 1) = c * 2 * 2 ^ k := by ring
        rw [e]; exact hn
      · rcases hm with h0 | hlt2
        · subst h0
          have e : c * 2 ^ (0 + 1) = c * 2 := by ring
          rw [e]; omega
        · have e : c * 2 ^ (k + 1) = c * 2 * 2 ^ k := by ring
          rw [e]; exact hlt2
    · refine ⟨0, ?_, by simpa using by omega, Or.inl rfl⟩
      rw [growLoopFuel, if_neg hlt]; ring

theorem growLoop_spec (c need : Nat) (hc : 0 < c) :
    ∃ k, growLoop c need = c * 2 ^ k ∧ need ≤ c * 2 ^ k ∧
      (k = 0 ∨ c * 2 ^ k < 2 * need) := by
  refine growLoopFuel_spec need c need hc ?_
  calc need ≤ 2 ^ need := Nat.le_of_lt (Nat.lt_two_pow need)
    _ ≤ c * 2 ^ need := Nat.le_mul_of_pos_left (2 ^ need) hc

theorem append_grow_eq (b : AudioBuffer) (d : List Int)
    (hfit : b.size + d.length > b.capacity) :
    append_audio_buffer true b d
      = { data := b.data ++ d, size := b.size + d.length,
          capacity := growLoop (b.capacity * 2) (b.size + d.length) } := by
  unfold append_audio_buffer
  rw [if_pos hfit]
  simp

theorem append_fit_eq (allocOk : Bool) (b : AudioBuffer) (d : List Int)
    (hfit : ¬ b.size + d.length > b.capacity) :
    append_audio_buffer allocOk b d
      = { data := b.data ++ d, size := b.size + d.length, capacity := b.capacity } := by
  unfold append_audio_buffer
  rw [if_neg hfit]

theorem append_bufInv (initCap : Nat) (hc : 0 < initCap) (b : AudioBuffer) (d : List Int)
    (hb : bufInv initCap b) :
    bufInv initCap (append_audio_buffer true b d) ∧
    (append_audio_buffer true b d).size = b.size + d.length := by
  obtain ⟨hlen, hle, k, hcap⟩ := hb
  by_cases hfit : b.size + d.length > b.capacity
  · have hpos : 0 < b.capacity * 2 := by
      have : (0 : Nat) < initCap * 2 ^ k := by positivity
      omega
    obtain ⟨j, hj, hn, _⟩ := growLoop_spec (b.capacity * 2) (b.size + d.length) hpos
    rw [append_grow_eq b d hfit]
    refine ⟨⟨?_, ?_, ⟨k + 1 + j, ?_⟩⟩, rfl⟩
    · simp [hlen]
    · show b.size + d.length ≤ growLoop (b.capacity * 2) (b.size + d.length)
      rw [hj]; exact hn
    · show growLoop (b.capacity * 2) (b.size + d.length) = initCap * 2 ^ (k + 1 + j)
      rw [hj, hcap]; ring
  · rw [append_fit_eq true b d hfit]
    refine ⟨⟨by simp [hlen], ?_, ⟨k, hcap⟩⟩, rfl⟩
    show b.size + d.length ≤ b.capacity
    omega

theorem appendAll_bufInv (initCap : Nat) (hc : 0 < initCap) :
    ∀ (blocks : List (List Int)) (b : AudioBuffer), bufInv initCap b →
      bufInv initCap (appendAll b blocks) ∧
      (appendAll b blocks).size = b.size + (blocks.map List.length).sum := by
  intro blocks
  induction blocks with
  | nil => intro b hb; simpa [appendAll] using hb
  | cons d rest ih =>
    intro b hb
    have h1 := append_bufInv initCap hc b d hb
    have h2 := ih (append_audio_buffer true b d) h1.1
    refine ⟨by simpa [appendAll] using h2.1, ?_⟩
    have e : appendAll b (d :: rest) = appendAll (append_audio_buffer true b d) rest := by
      simp [appendAll]
    rw [e, h2.2, h1.2]
    simp
    omega

theorem bufInv_init (initCap : Nat) : bufInv initCap (init_audio_buffer initCap) :=
  ⟨rfl, by simp [init_audio_buffer], ⟨0, by simp [init_audio_buffer]⟩⟩

/-- Claim C3: for every sequence of appends with all reallocations
succeeding, the final length is the sum of the appended sizes; after any
prefix of the appends the capacity is a power-of-two multiple of the
initial capacity that is at least the length; and an append that does
not fit multiplies the capacity by `2^k` (k ≥ 1), doubling until the
data fits and no further — never a fixed increment. -/
theorem c3_buffer_growth (initCap : Nat) (hc : 0 < initCap) (blocks : List (List Int)) :
    (appendAll (init_audio_buffer initCap) blocks).size = (blocks.map List.length).sum ∧
    (∀ n, ∃ k,
      (appendAll (init_audio_buffer initCap) (blocks.take n)).capacity = initCap * 2 ^ k ∧
      (appendAll (init_audio_buffer initCap) (blocks.take n)).size
        ≤ (appendAll (init_audio_buffer initCap) (blocks.take n)).capacity) ∧
    (∀ (b : AudioBuffer) (d : List Int), 0 < b.capacity → b.size + d.length > b.capacity →
      ∃ k, 1 ≤ k ∧ (append_audio_buffer true b d).capacity = b.capacity * 2 ^ k ∧
        b.size + d.length ≤ (append_audio_buffer true b d).capacity ∧
        ((append_audio_buffer true b d).capacity = b.capacity * 2 ∨
          (append_audio_buffer true b d).capacity < 2 * (b.size + d.length))) := by
  refine ⟨?_, ?_, ?_⟩
  · have h := appendAll_bufInv initCap hc blocks (init_audio_buffer initCap) (bufInv_init initCap)
    simpa [init_audio_buffer] using h.2
  · intro n
    have h := appendAll_bufInv initCap hc (blocks.take n) (init_audio_buffer initCap)
      (bufInv_init initCap)
    obtain ⟨⟨_, hle, k, hcap⟩, _⟩ := h
    exact ⟨k, hcap, hle⟩
  · intro b d hpos hfit
    have hpos2 : 0 < b.capacity * 2 := by omega
    obtain ⟨j, hj, hn, hm⟩ := growLoop_spec (b.capacity * 2) (b.size + d.length) hpos2
    have hcap : (append_audio_buffer true b d).capacity
        = growLoop (b.capacity * 2) (b.size + d.length) := by
      rw [append_grow_eq b d hfit]
    refine ⟨j + 1, by omega, ?_, ?_, ?_⟩
    · rw [hcap, hj]; ring
    · rw [hcap, hj]; exact hn
    · rcases hm with h0 | hlt2
      · subst h0
        left
        rw [hcap, hj]; ring
      · right
        rw [hcap, hj]; exact hlt2

theorem c3_buffer_growth_witness :
    0 < 4 ∧ (appendAll (init_audio_buffer 4) [[1, 2, 3], [4, 5, 6]]).size
      = ([[1, 2, 3], [4, 5, 6]].map List.length).sum :=
  ⟨by decide, (c3_buffer_growth 4 (by decide) [[1, 2, 3], [4, 5, 6]]).1⟩

/-- Claim C8: when the reallocation needed to grow the buffer fails, the
append returns with the buffer completely unchanged — data, size and
capacity — silently dropping the frame. -/
theorem c8_append_alloc_failure (b : AudioBuffer) (d : List Int)
    (h : b.size + d.length > b.capacity) :
    append_audio_buffer false b d = b := by
  simp [append_audio_buffer, h]

theorem c8_append_alloc_failure_witness :
    (AudioBuffer.mk [0] 1 1).size + [(5 : Int)].length > (AudioBuffer.mk [0] 1 1).capacity ∧
    append_audio_buffer false (AudioBuffer.mk [0] 1 1) [(5 : Int)] = AudioBuffer.mk [0] 1 1 :=
  ⟨by decide, c8_append_alloc_failure _ _ (by decide)⟩

/-! ## Lemmas about the text-field extraction -/

theorem leadsWith_append (pat rest : List Char) : leadsWith pat (pat ++ rest) = true := by
  induction pat with
  | nil => rfl
  | cons p ps ih => simp [leadsWith, ih]

theorem afterMarker_marker (rest : List Char) :
    afterMarker textMarker (textMarker ++ rest) = some rest := rfl

theorem afterMarker_brace (rest : List Char) :
    afterMarker textMarker ('\x7b' :: (textMarker ++ rest)) = some rest := rfl

theorem takeToQuote_append (l s : List Char) (hl : '"' ∉ l) :
    takeToQuote (l ++ '"' :: s) = l := by
  induction l with
  | nil => simp [takeToQuote]
  | cons c l ih =>
    have hc : c ≠ '"' := by
      intro e; exact hl (by simp [e])
    have hl' : '"' ∉ l := fun m => hl (List.mem_cons_of_mem c m)
    simp [takeToQuote, hc] at ih ⊢
    exact ih hl'

theorem takeToQuote_no_quote (l : List Char) : '"' ∉ takeToQuote l := by
  intro h
  have h2 := List.mem_takeWhile_imp h
  simp at h2

theorem unescChar_ne_quote (c : Char) (hc : c ≠ '"') : unescChar c ≠ '"' := by
  unfold unescChar
  split_ifs with h1 h2 h3
  · decide
  · decide
  · decide
  · exact hc

theorem unescape_esc (c2 : Char) (rest2 : List Char) :
    unescape ('\\' :: c2 :: rest2) = unescChar c2 :: unescape rest2 := by
  simp [unescape]

theorem unescape_ne (c : Char) (rest : List Char) (hc : ¬ c = '\\') :
    unescape (c :: rest) = c :: unescape rest := by
  rw [unescape.eq_def]
  simp only [if_neg hc]

theorem unescape_length : ∀ l : List Char, (unescape l).length ≤ l.length
  | [] => by simp [unescape]
  | c :: rest => by
    by_cases hc : c = '\\'
    · subst hc
      match rest with
      | [] => simp [unescape]
      | c2 :: rest2 =>
        have ih := unescape_length rest2
        rw [unescape_esc]
        simp only [List.length_cons]
        omega
    · have ih := unescape_length rest
      rw [unescape_ne c rest hc]
      simp only [List.length_cons]
      omega

theorem unescape_no_quote : ∀ l : List Char, '"' ∉ l → '"' ∉ unescape l
  | [], _ => by simp [unescape]
  | c :: rest, h => by
    have hc0 : c ≠ '"' := by
      intro e; exact h (by simp [e])
    have hrest : '"' ∉ rest := fun m => h (List.mem_cons_of_mem c m)
    by_cases hc : c = '\\'
    · subst hc
      match rest with
      | [] => simp [unescape]
      | c2 :: rest2 =>
        have hc2 : c2 ≠ '"' := by
          intro e; exact hrest (by simp [e])
        have hrest2 : '"' ∉ rest2 := fun m => hrest (List.mem_cons_of_mem c2 m)
        have ih := unescape_no_quote rest2 hrest2
        rw [unescape_esc]
        simp only [List.mem_cons, not_or]
        exact ⟨fun e => unescChar_ne_quote c2 hc2 e.symm, ih⟩
    · have ih := unescape_no_quote rest hrest
      rw [unescape_ne c rest hc]
      simp only [List.mem_cons, not_or]
      exact ⟨fun e => hc0 e.symm, ih⟩

theorem encodeText_no_quote (t : List Char) (hq : '"' ∉ t) : '"' ∉ encodeText t := by
  induction t with
  | nil => simp [encodeText]
  | cons c t ih =>
    have hc : c ≠ '"' := by
      intro e; exact hq (by simp [e])
    have ht : '"' ∉ t := fun m => hq (List.mem_cons_of_mem c m)
    simp only [encodeText, List.flatMap_cons] at ih ⊢
    intro hmem
    rcases List.mem_append.mp hmem with h1 | h2
    · unfold encodeChar at h1
      split_ifs at h1 <;> simp_all
    · exact ih ht h2

theorem encodeText_cons (c : Char) (t : List Char) :
    encodeText (c :: t) = encodeChar c ++ encodeText t := by
  simp [encodeText]

theorem unescape_encodeText : ∀ t : List Char, unescape (encodeText t) = t
  | [] => by simp [encodeText, unescape]
  | c :: t => by
    have ih := unescape_encodeText t
    rw [encodeText_cons]
    by_cases h1 : c = '\n'
    · subst h1
      have e1 : encodeChar '\n' = ['\\', 'n'] := by simp [encodeChar]
      rw [e1]
      simp only [List.cons_append, List.nil_append]
      rw [unescape_esc, ih]
      simp [unescChar]
    · by_cases h2 : c = '\t'
      · subst h2
        have e1 : encodeChar '\t' = ['\\', 't'] := by simp [encodeChar]
        rw [e1]
        simp only [List.cons_append, List.nil_append]
        rw [unescape_esc, ih]
        simp [unescChar]
      · by_cases h3 : c = '\r'
        · subst h3
          have e1 : encodeChar '\r' = ['\\', 'r'] := by simp [encodeChar]
          rw [e1]
          simp only [List.cons_append, List.nil_append]
          rw [unescape_esc, ih]
          simp [unescChar]
        · by_cases h4 : c = '"'
          · subst h4
            have e1 : encodeChar '"' = ['\\', '"'] := by simp [encodeChar]
            rw [e1]
            simp only [List.cons_append, List.nil_append]
            rw [unescape_esc, ih]
            simp [unescChar]
          · by_cases h5 : c = '\\'
            · subst h5
              have e1 : encodeChar '\\' = ['\\', '\\'] := by simp [encodeChar]
              rw [e1]
              simp only [List.cons_append, List.nil_append]
              rw [unescape_esc, ih]
              simp [unescChar]
            · have e1 : encodeChar c = [c] := by simp [encodeChar, h1, h2, h3, h4, h5]
              rw [e1]
              simp only [List.cons_append, List.nil_append]
              rw [unescape_ne c _ h5, ih]

/-- Claim C4 (amended): the extraction reverses the escape sequences for
newline, tab, carriage return and backslash: for every text value `t`
that contains no double-quote character, extracting from a response that
carries the JSON-escaped `t` in its text field yields exactly `t`.  (As
stated over all five sequences the claim fails: an escaped quote makes
the raw scan stop at that quote, see the counterexample.) -/
theorem c4_escape_roundtrip (t : List Char) (hq : '"' ∉ t) (suffix : List Char) :
    extractL ('\x7b' :: (textMarker ++ (encodeText t ++ '"' :: suffix))) = some t := by
  have hcontains : (encodeText t ++ '"' :: suffix).contains '"' = true := by simp
  unfold extractL extractRaw
  rw [afterMarker_brace]
  simp only [Option.some_bind]
  rw [if_pos hcontains]
  rw [takeToQuote_append _ _ (encodeText_no_quote t hq)]
  simp [unescape_encodeText]

theorem c4_escape_roundtrip_witness :
    ('"' ∉ (['h', 'i', '\n', '\t', '\r', '\\'] : List Char)) ∧
    extractL ('\x7b' :: (textMarker
        ++ (encodeText ['h', 'i', '\n', '\t', '\r', '\\'] ++ '"' :: [])))
      = some ['h', 'i', '\n', '\t', '\r', '\\'] :=
  ⟨by decide, c4_escape_roundtrip ['h', 'i', '\n', '\t', '\r', '\\'] (by decide) []⟩

/-- Claim C4, as stated, is false: the response whose text field holds the
escaped form of `a"b` (the middle conjunct: its bytes are exactly
`a\"b`) extracts to `a\` — the scan stops at the quote of the escaped
`\"` — not to the original characters `a"b`. -/
theorem c4_counterexample :
    extractL ['\x7b', '"', 't', 'e', 'x', 't', '"', ':', '"', 'a', '\\', '"', 'b', '"', '\x7d']
      = some ['a', '\\'] ∧
    encodeText ['a', '"', 'b'] = ['a', '\\', '"', 'b'] ∧
    (['a', '\\'] : List Char) ≠ ['a', '"', 'b'] := by decide

/-- Claim C10: every transcription string produced by the extraction is
free of double-quote characters — the raw scan stops at the first quote
after the marker, and the in-place unescape never lengthens its input
(second conjunct), so it cannot reintroduce one. -/
theorem c10_extract_no_quote :
    (∀ (resp t : List Char), extractL resp = some t → '"' ∉ t) ∧
    (∀ l : List Char, (unescape l).length ≤ l.length) := by
  constructor
  · intro resp t h
    unfold extractL at h
    rcases Option.map_eq_some'.mp h with ⟨raw, hraw, ht⟩
    subst ht
    unfold extractRaw at hraw
    rcases hmk : afterMarker textMarker resp with _ | rest <;> rw [hmk] at hraw
    · simp at hraw
    · simp only [Option.some_bind] at hraw
      by_cases hcq : rest.contains '"' = true
      · rw [if_pos hcq] at hraw
        have hr : takeToQuote rest = raw := by injection hraw
        rw [← hr]
        exact unescape_no_quote _ (takeToQuote_no_quote rest)
      · rw [if_neg hcq] at hraw
        exact absurd hraw (by simp)
  · exact unescape_length

theorem c10_extract_no_quote_witness :
    extractL (textMarker ++ ['h', '"']) = some ['h'] ∧ '"' ∉ (['h'] : List Char) :=
  ⟨by decide, c10_extract_no_quote.1 (textMarker ++ ['h', '"']) ['h'] (by decide)⟩

/-! ## The single-instance toggle (C1) -/

/-- Claim C1: with no identity file, a start (key loaded, fork succeeded)
creates exactly one identity file holding the daemon's pid, sends no
signal and runs the capture session; with an identity file naming a live
pid, a second invocation sends that pid the stop signal, exits 0
immediately, leaves the identity file as it was and performs no capture;
with an identity file naming a dead pid, the stale file is removed and
the invocation proceeds as owner. -/
theorem c1_single_instance (alive : Nat → Bool) (childPid : Nat) :
    (mainStart { pidfile := none, alive := alive } true true childPid
        = { pidfile := some childPid, signals := [], captured := true, exitCode := 0 }) ∧
    (∀ q, 0 < q → alive q = true →
      mainStart { pidfile := some q, alive := alive } true true childPid
        = { pidfile := some q, signals := [q], captured := false, exitCode := 0 }) ∧
    (∀ q, alive q = false →
      mainStart { pidfile := some q, alive := alive } true true childPid
        = { pidfile := some childPid, signals := [], captured := true, exitCode := 0 }) := by
  refine ⟨?_, ?_, ?_⟩
  · simp [mainStart, check_running]
  · intro q hq ha
    simp [mainStart, check_running, ha, hq]
  · intro q ha
    simp [mainStart, check_running, ha]

theorem c1_single_instance_witness :
    mainStart { pidfile := some 7, alive := fun n => n == 7 } true true 9
      = { pidfile := some 7, signals := [7], captured := false, exitCode := 0 } :=
  (c1_single_instance (fun n => n == 7) 9).2.1 7 (by decide) (by decide)

/-! ## The peak level metric (C9) -/

theorem foldl_max_div (l : List Int) :
    ∀ m : Nat, l.foldl (fun (q : ℚ) (s : ℤ) => max q (|(s : ℚ)| / 32768)) ((m : ℚ) / 32768)
      = ((l.foldl (fun n s => max n s.natAbs) m : ℕ) : ℚ) / 32768 := by
  induction l with
  | nil => intro m; simp
  | cons s l ih =>
    intro m
    simp only [List.foldl_cons]
    have e : max ((m : ℚ) / 32768) (|(s : ℚ)| / 32768)
        = ((max m s.natAbs : ℕ) : ℚ) / 32768 := by
      rw [max_div_div_right (by norm_num : (0 : ℚ) ≤ 32768)]
      congr 1
      push_cast [Int.cast_natAbs]
      ring
    rw [e, ih (max m s.natAbs)]

theorem frameLevel_eq (l : List Int) : frameLevel l = (maxAbsSample l : ℚ) / 32768 := by
  unfold frameLevel maxAbsSample
  have h0 : (0 : ℚ) = ((0 : ℕ) : ℚ) / 32768 := by norm_num
  rw [h0, foldl_max_div l 0]

theorem foldl_maxAbs_le :
    ∀ l : List Int, (∀ s ∈ l, -32768 ≤ s ∧ s ≤ 32767) →
      ∀ m : Nat, m ≤ 32768 → l.foldl (fun n s => max n s.natAbs) m ≤ 32768 := by
  intro l
  induction l with
  | nil => intro _ m hm; simpa using hm
  | cons s l ih =>
    intro hb m hm
    have hs := hb s (by simp)
    have hbl : ∀ x ∈ l, -32768 ≤ x ∧ x ≤ 32767 :=
      fun x hx => hb x (List.mem_cons_of_mem s hx)
    simp only [List.foldl_cons]
    apply ih hbl
    have : s.natAbs ≤ 32768 := by omega
    omega

/-- Claim C9: for every frame of signed 16-bit samples the computed level
is the maximum absolute sample value divided by 32768, lies in `[0, 1]`,
and is recomputed from the current frame alone — the previous level does
not enter the result. -/
theorem c9_peak_level (frame : List Int) (hb : ∀ s ∈ frame, -32768 ≤ s ∧ s ≤ 32767) :
    frameLevel frame = (maxAbsSample frame : ℚ) / 32768 ∧
    0 ≤ frameLevel frame ∧ frameLevel frame ≤ 1 ∧
    ∀ prev : ℚ, updatedLevel prev (some frame) = frameLevel frame := by
  have he := frameLevel_eq frame
  have hle : maxAbsSample frame ≤ 32768 := foldl_maxAbs_le frame hb 0 (by norm_num)
  refine ⟨he, ?_, ?_, fun prev => rfl⟩
  · rw [he]; positivity
  · rw [he, div_le_one (by norm_num : (0 : ℚ) < 32768)]
    exact_mod_cast hle

theorem c9_peak_level_witness :
    (∀ s ∈ ([100, -200] : List Int), -32768 ≤ s ∧ s ≤ 32767) ∧
    frameLevel [100, -200] = (maxAbsSample [100, -200] : ℚ) / 32768 :=
  ⟨by decide, (c9_peak_level [100, -200] (by decide)).1⟩

/-! ## Lemmas about the capture loop and the session trace -/

theorem captureLoop_fst (start : Nat) :
    ∀ (inputs : List CaptureInput) (buf : AudioBuffer) (lvl : ℚ),
      (captureLoop start inputs buf lvl).1 = [] ∨
      ∃ e, (captureLoop start inputs buf lvl).1
          = [{ status := "MAX_TIME", level := 0, elapsed := e }] := by
  intro inputs
  induction inputs with
  | nil => intro buf lvl; left; simp [captureLoop]
  | cons i rest ih =>
    intro buf lvl
    by_cases hs : i.stop
    · left; simp [captureLoop, hs]
    · by_cases ht : i.now - start > 300
      · right; exact ⟨i.now - start, by simp [captureLoop, hs, ht]⟩
      · rcases hr : i.read with _ | f
        · simpa [captureLoop, hs, ht, hr] using ih buf (updatedLevel lvl none)
        · simpa [captureLoop, hs, ht, hr] using
            ih (append_audio_buffer i.allocOk buf (bytesOfSamples f)) (updatedLevel lvl (some f))

theorem captureLoop_timeout (start : Nat) :
    ∀ (inputs : List CaptureInput) (buf : AudioBuffer) (lvl : ℚ),
      (∀ i ∈ inputs, i.stop = false) →
      (∃ i ∈ inputs, i.now - start > 300) →
      ∃ e b l, captureLoop start inputs buf lvl
          = ([{ status := "MAX_TIME", level := 0, elapsed := e }], b, l, true) := by
  intro inputs
  induction inputs with
  | nil => intro buf lvl _ h; simp at h
  | cons i rest ih =>
    intro buf lvl hstop htime
    have hs : i.stop = false := hstop i (by simp)
    by_cases ht : i.now - start > 300
    · exact ⟨i.now - start, buf, lvl, by simp [captureLoop, hs, ht]⟩
    · have htime2 : ∃ j ∈ rest, j.now - start > 300 := by
        rcases htime with ⟨j, hj, hjt⟩
        rcases List.mem_cons.mp hj with e | hjr
        · subst e; exact absurd hjt ht
        · exact ⟨j, hjr, hjt⟩
      have hstop2 : ∀ j ∈ rest, j.stop = false :=
        fun j hj => hstop j (List.mem_cons_of_mem i hj)
      rcases hr : i.read with _ | f
      · obtain ⟨e, b, l, hcl⟩ := ih buf (updatedLevel lvl none) hstop2 htime2
        exact ⟨e, b, l, by simp [captureLoop, hs, ht, hr, hcl]⟩
      · obtain ⟨e, b, l, hcl⟩ := ih (append_audio_buffer i.allocOk buf (bytesOfSamples f))
          (updatedLevel lvl (some f)) hstop2 htime2
        exact ⟨e, b, l, by simp [captureLoop, hs, ht, hr, hcl]⟩

theorem recordingThread_trace_shape (hw df pk : Bool) (start now0 : Nat)
    (inputs : List CaptureInput) :
    (recordingThread hw df pk start now0 inputs).trace
        = [{ status := "ERROR: Audio device failed", level := 0, elapsed := now0 - start }] ∨
    (recordingThread hw df pk start now0 inputs).trace = [] ∨
    ∃ capTr, (recordingThread hw df pk start now0 inputs).trace
        = { status := "READY", level := 0, elapsed := now0 - start }
          :: { status := "RECORDING", level := 0, elapsed := now0 - start } :: capTr ∧
      (capTr = [] ∨ ∃ e, capTr = [{ status := "MAX_TIME", level := 0, elapsed := e }]) := by
  rcases hd : openDevice hw df with _ | dev
  · left
    simp [recordingThread, hd]
  · by_cases hpk : pk = true
    · right; right
      refine ⟨(captureLoop start inputs (init_audio_buffer 320000) 0).1, ?_, ?_⟩
      · simp [recordingThread, hd, hpk]
      · exact captureLoop_fst start inputs (init_audio_buffer 320000) 0
    · right; left
      have hpk2 : pk = false := by revert hpk; cases pk <;> simp
      simp [recordingThread, hd, hpk2]

theorem capTrace_rec_mem (p : RunParams) :
    ∀ r ∈ capTrace p,
      (r.status = "READY" ∨ r.status = "RECORDING" ∨ r.status = "MAX_TIME" ∨
        r.status = "ERROR: Audio device failed") ∧ r.level = 0 := by
  intro r hr
  unfold capTrace at hr
  rcases recordingThread_trace_shape p.hwOk p.defaultOk p.paramsOk p.start p.now0 p.inputs with
    h | h | ⟨capTr, h, hcap⟩ <;> rw [h] at hr
  · simp at hr
    simp [hr]
  · simp at hr
  · rcases hcap with hc | ⟨e, hc⟩
    · subst hc
      simp at hr
      rcases hr with hr | hr <;> simp [hr]
    · subst hc
      simp at hr
      rcases hr with hr | hr | hr <;> simp [hr]

theorem capStatuses_mem (p : RunParams) :
    ∀ s ∈ capStatuses p,
      s = "READY" ∨ s = "RECORDING" ∨ s = "MAX_TIME" ∨ s = "ERROR: Audio device failed" := by
  intro s hs
  rcases List.mem_map.mp hs with ⟨r, hr, he⟩
  rw [← he]
  exact (capTrace_rec_mem p r hr).1

theorem daemonRun_buf (p : RunParams) : (daemonRun p).buf = capBuf p := by
  unfold daemonRun capBuf
  by_cases hb :
      (recordingThread p.hwOk p.defaultOk p.paramsOk p.start p.now0 p.inputs).buf.size > 0
  · rcases hx : p.response.bind extract with _ | t <;> simp [hb, hx]
  · simp [hb]

theorem daemonRun_no_audio (p : RunParams) (hb : ¬ (capBuf p).size > 0) :
    daemonRun p
      = { trace := { status := "CONNECTING", level := 0, elapsed := 0 }
            :: (capTrace p
              ++ [{ status := "PROCESSING", level := 0, elapsed := p.endNow - p.start },
                  { status := "NO_AUDIO", level := 0, elapsed := p.endNow - p.start }])
          buf := capBuf p, uploaded := false, clipboard := none, exitCode := 0
          pathsTried := devicePathsTried p.hwOk } := by
  unfold capBuf at hb
  simp [daemonRun, capTrace, capBuf, hb]

theorem daemonRun_copied (p : RunParams) (t : String) (hb : (capBuf p).size > 0)
    (hx : p.response.bind extract = some t) :
    daemonRun p
      = { trace := { status := "CONNECTING", level := 0, elapsed := 0 }
            :: (capTrace p
              ++ [{ status := "PROCESSING", level := 0, elapsed := p.endNow - p.start },
                  { status := "UPLOADING", level := 0, elapsed := p.endNow - p.start },
                  { status := "COPIED", level := 0, elapsed := p.endNow - p.start }])
          buf := capBuf p, uploaded := true, clipboard := some t, exitCode := 0
          pathsTried := devicePathsTried p.hwOk } := by
  unfold capBuf at hb
  simp [daemonRun, capTrace, capBuf, hb, hx]

theorem daemonRun_failed (p : RunParams) (hb : (capBuf p).size > 0)
    (hx : p.response.bind extract = none) :
    daemonRun p
      = { trace := { status := "CONNECTING", level := 0, elapsed := 0 }
            :: (capTrace p
              ++ [{ status := "PROCESSING", level := 0, elapsed := p.endNow - p.start },
                  { status := "UPLOADING", level := 0, elapsed := p.endNow - p.start },
                  { status := "FAILED", level := 0, elapsed := p.endNow - p.start }])
          buf := capBuf p, uploaded := true, clipboard := none, exitCode := 0
          pathsTried := devicePathsTried p.hwOk } := by
  unfold capBuf at hb
  simp [daemonRun, capTrace, capBuf, hb, hx]

theorem statuses_shape (p : RunParams) :
    ∃ post, statuses p = "CONNECTING" :: (capStatuses p ++ "PROCESSING" :: post) := by
  by_cases hb : (capBuf p).size > 0
  · rcases hx : p.response.bind extract with _ | t
    · exact ⟨["UPLOADING", "FAILED"],
        by rw [statuses, daemonRun_failed p hb hx]; simp [capStatuses]⟩
    · exact ⟨["UPLOADING", "COPIED"],
        by rw [statuses, daemonRun_copied p t hb hx]; simp [capStatuses]⟩
  · exact ⟨["NO_AUDIO"], by rw [statuses, daemonRun_no_audio p hb]; simp [capStatuses]⟩

theorem recordingThread_timeout (hw df pk : Bool) (start now0 : Nat)
    (inputs : List CaptureInput)
    (hdev : hw = true ∨ df = true) (hpk : pk = true)
    (hstop : ∀ i ∈ inputs, i.stop = false)
    (htime : ∃ i ∈ inputs, i.now - start > 300) :
    ∃ e b l, recordingThread hw df pk start now0 inputs
      = { trace := [{ status := "READY", level := 0, elapsed := now0 - start },
                    { status := "RECORDING", level := 0, elapsed := now0 - start },
                    { status := "MAX_TIME", level := 0, elapsed := e }],
          buf := b, level := l, timedOut := true } := by
  obtain ⟨e, b, l, hcl⟩ :=
    captureLoop_timeout start inputs (init_audio_buffer 320000) 0 hstop htime
  have hne : openDevice hw df ≠ none := by
    rcases hdev with h | h
    · simp [openDevice, h]
    · cases hw <;> simp [openDevice, h]
  rcases hopen : openDevice hw df with _ | dev
  · exact absurd hopen hne
  · exact ⟨e, b, l, by simp [recordingThread, hopen, hpk, hcl]⟩

/-- Claim C5: the capture loop checks the 300-second ceiling every
iteration; in a run where the stop flag is never raised but elapsed time
exceeds the ceiling at some iteration, the loop ends through the timeout
path (`timedOut`), writing MAX_TIME, and the main thread's PROCESSING
write follows immediately — the same finalize path as a normal stop. -/
theorem c5_max_time (p : RunParams)
    (hdev : p.hwOk = true ∨ p.defaultOk = true) (hpk : p.paramsOk = true)
    (hstop : ∀ i ∈ p.inputs, i.stop = false)
    (htime : ∃ i ∈ p.inputs, i.now - p.start > 300) :
    (recordingThread p.hwOk p.defaultOk p.paramsOk p.start p.now0 p.inputs).timedOut = true ∧
    ∃ pre post, statuses p = pre ++ "MAX_TIME" :: "PROCESSING" :: post := by
  obtain ⟨e, b, l, hrt⟩ := recordingThread_timeout p.hwOk p.defaultOk p.paramsOk
    p.start p.now0 p.inputs hdev hpk hstop htime
  constructor
  · rw [hrt]
  · obtain ⟨post, hs⟩ := statuses_shape p
    have hcs : capStatuses p = ["READY", "RECORDING", "MAX_TIME"] := by
      simp [capStatuses, capTrace, hrt]
    refine ⟨["CONNECTING", "READY", "RECORDING"], post, ?_⟩
    rw [hs, hcs]
    simp

theorem c5_max_time_witness :
    (recordingThread c5RunParams.hwOk c5RunParams.defaultOk c5RunParams.paramsOk
        c5RunParams.start c5RunParams.now0 c5RunParams.inputs).timedOut = true :=
  (c5_max_time c5RunParams (Or.inl rfl) rfl (by decide) (by decide)).1

/-- Claim C6: when the direct hardware open fails, the default path is
tried (both paths attempted in that order); when both fail the thread
writes the device-failure record (status token `ERROR` followed by the
detail text), no READY or RECORDING is ever written by the session, the
buffer stays empty (no capture, so the session falls through to
NO_AUDIO with no upload), and the process exits 0. -/
theorem c6_device_fallback (p : RunParams)
    (h1 : p.hwOk = false) (h2 : p.defaultOk = false) :
    (daemonRun p).pathsTried = ["plughw:0,0", "default"] ∧
    ({ status := "ERROR: Audio device failed", level := 0,
        elapsed := p.now0 - p.start } : StatusRec) ∈ (daemonRun p).trace ∧
    "RECORDING" ∉ statuses p ∧ "READY" ∉ statuses p ∧
    (daemonRun p).buf = emptyBuffer ∧
    (daemonRun p).uploaded = false ∧
    (daemonRun p).exitCode = 0 := by
  have hrt : recordingThread p.hwOk p.defaultOk p.paramsOk p.start p.now0 p.inputs
      = ⟨[⟨"ERROR: Audio device failed", 0, p.now0 - p.start⟩], emptyBuffer, 0, false⟩ := by
    simp [recordingThread, openDevice, h1, h2]
  have hcb : capBuf p = emptyBuffer := by simp [capBuf, hrt]
  have hb : ¬ (capBuf p).size > 0 := by simp [hcb, emptyBuffer]
  have hd := daemonRun_no_audio p hb
  have hct : capTrace p = [⟨"ERROR: Audio device failed", 0, p.now0 - p.start⟩] := by
    simp [capTrace, hrt]
  have hs : statuses p
      = ["CONNECTING", "ERROR: Audio device failed", "PROCESSING", "NO_AUDIO"] := by
    rw [statuses, hd, hct]
    simp
  refine ⟨?_, ?_, ?_, ?_, ?_, ?_, ?_⟩
  · rw [hd]
    simp [devicePathsTried, h1]
  · rw [hd, hct]
    simp
  · rw [hs]; decide
  · rw [hs]; decide
  · rw [hd, hcb]
  · rw [hd]
  · rw [hd]

theorem c6_device_fallback_witness :
    (daemonRun c6RunParams).pathsTried = ["plughw:0,0", "default"] :=
  (c6_device_fallback c6RunParams rfl rfl).1

theorem update_status_overwrite (old : List Char) (r : StatusRec) :
    update_status old r = (render r).toList := by
  show ((render r).toList ++ old.drop (render r).toList.length).take (render r).toList.length
      = (render r).toList
  exact List.take_left _ _

theorem fmt2_shape (q : ℚ) : twoFracDecimal (fmt2 q) := by
  unfold fmt2 twoFracDecimal
  by_cases h : (⌊q * 100 + 1 / 2⌋).toNat ≥ 100
  · rw [if_pos h]
    left
    rfl
  · rw [if_neg h]
    push_neg at h
    right
    exact ⟨⟨(⌊q * 100 + 1 / 2⌋).toNat / 10, by omega⟩,
      ⟨(⌊q * 100 + 1 / 2⌋).toNat % 10, by omega⟩, rfl⟩

theorem daemonRun_rec_mem (p : RunParams) :
    ∀ r ∈ (daemonRun p).trace,
      (r.status ∈ statusTokens ∨ r.status = "ERROR: Audio device failed") ∧ r.level = 0 := by
  have hcap : ∀ r ∈ capTrace p,
      (r.status ∈ statusTokens ∨ r.status = "ERROR: Audio device failed") ∧ r.level = 0 := by
    intro r hr
    have h := capTrace_rec_mem p r hr
    refine ⟨?_, h.2⟩
    rcases h.1 with h | h | h | h
    · left; rw [h]; decide
    · left; rw [h]; decide
    · left; rw [h]; decide
    · right; exact h
  intro r hr
  by_cases hb : (capBuf p).size > 0
  · rcases hx : p.response.bind extract with _ | t
    · rw [daemonRun_failed p hb hx] at hr
      simp only [List.mem_cons, List.mem_append, List.mem_singleton, List.mem_nil_iff,
        or_false] at hr
      rcases hr with hr | hr | hr | hr | hr
      · subst hr; exact ⟨Or.inl (show "CONNECTING" ∈ statusTokens by decide), rfl⟩
      · exact hcap r hr
      · subst hr; exact ⟨Or.inl (show "PROCESSING" ∈ statusTokens by decide), rfl⟩
      · subst hr; exact ⟨Or.inl (show "UPLOADING" ∈ statusTokens by decide), rfl⟩
      · subst hr; exact ⟨Or.inl (show "FAILED" ∈ statusTokens by decide), rfl⟩
    · rw [daemonRun_copied p t hb hx] at hr
      simp only [List.mem_cons, List.mem_append, List.mem_singleton, List.mem_nil_iff,
        or_false] at hr
      rcases hr with hr | hr | hr | hr | hr
      · subst hr; exact ⟨Or.inl (show "CONNECTING" ∈ statusTokens by decide), rfl⟩
      · exact hcap r hr
      · subst hr; exact ⟨Or.inl (show "PROCESSING" ∈ statusTokens by decide), rfl⟩
      · subst hr; exact ⟨Or.inl (show "UPLOADING" ∈ statusTokens by decide), rfl⟩
      · subst hr; exact ⟨Or.inl (show "COPIED" ∈ statusTokens by decide), rfl⟩
  · rw [daemonRun_no_audio p hb] at hr
    simp only [List.mem_cons, List.mem_append, List.mem_singleton, List.mem_nil_iff,
        or_false] at hr
    rcases hr with hr | hr | hr | hr
    · subst hr; exact ⟨Or.inl (show "CONNECTING" ∈ statusTokens by decide), rfl⟩
    · exact hcap r hr
    · subst hr; exact ⟨Or.inl (show "PROCESSING" ∈ statusTokens by decide), rfl⟩
    · subst hr; exact ⟨Or.inl (show "NO_AUDIO" ∈ statusTokens by decide), rfl⟩

/-- Claim C7 (amended): each status write fully overwrites the channel
with the single line `STATUS|level|MM:SS` (a write never appends — the
new contents are exactly the rendered line, whatever was there before);
the level field renders as a decimal with exactly two fractional digits;
every status field the session writes is one of the ten contract tokens
or the device-failure string `ERROR: Audio device failed` (the `ERROR`
token followed by detail text — this is the one deviation from the
ten-token contract, see the counterexample); the monitor thread's
periodic writes use the RECORDING token.  All session writes pass
level `0.00`; the monitor write carries the current level. -/
theorem c7_status_channel :
    (∀ (old : List Char) (r : StatusRec), update_status old r = (render r).toList) ∧
    (∀ r : StatusRec,
        render r = r.status ++ "|" ++ fmt2 r.level ++ "|" ++ fmtMMSS r.elapsed ++ "\n") ∧
    (∀ p : RunParams, ∀ r ∈ (daemonRun p).trace,
        (r.status ∈ statusTokens ∨ r.status = "ERROR: Audio device failed") ∧ r.level = 0) ∧
    (∀ q : ℚ, 0 ≤ q → q ≤ 1 → twoFracDecimal (fmt2 q)) ∧
    (∀ (lvl : ℚ) (e : Nat),
        (monitorWrite lvl e).status ∈ statusTokens ∧ twoFracDecimal (fmt2 lvl)) :=
  ⟨update_status_overwrite, fun _ => rfl, daemonRun_rec_mem,
   fun q _ _ => fmt2_shape q,
   fun lvl _ => ⟨show "RECORDING" ∈ statusTokens by decide, fmt2_shape lvl⟩⟩

theorem c7_status_channel_witness :
    update_status ['x'] { status := "READY", level := 0, elapsed := 65 }
        = (render { status := "READY", level := 0, elapsed := 65 }).toList ∧
    twoFracDecimal (fmt2 (1 / 2)) :=
  ⟨c7_status_channel.1 ['x'] { status := "READY", level := 0, elapsed := 65 },
   c7_status_channel.2.2.2.1 (1 / 2) (by norm_num) (by norm_num)⟩

/-- Claim C7, as stated, is false: the device-failure write's status
field is `ERROR: Audio device failed`, which is not one of the ten
contract tokens. -/
theorem c7_counterexample :
    "ERROR: Audio device failed" ∈ statuses c7RunParams ∧
    "ERROR: Audio device failed" ∉ statusTokens := by
  constructor
  · decide
  · decide

/-- Claim C2 (amended): UPLOADING is reached only with a non-empty
buffer, after PROCESSING; with an empty buffer no upload happens and the
session ends in the terminal NO_AUDIO state; COPIED is reached only
after UPLOADING and only when extraction produced a result string — the
code checks only that extraction succeeded, so the result may be empty
(see the counterexample against the "non-empty" reading). -/
theorem c2_state_machine (p : RunParams) :
    ("UPLOADING" ∈ statuses p → (daemonRun p).buf.size > 0 ∧ "PROCESSING" ∈ statuses p) ∧
    ((daemonRun p).buf.size = 0 →
        (daemonRun p).uploaded = false ∧ "UPLOADING" ∉ statuses p ∧
        (statuses p).getLast? = some "NO_AUDIO") ∧
    ("COPIED" ∈ statuses p →
        "UPLOADING" ∈ statuses p ∧
        ∃ t, p.response.bind extract = some t ∧ (daemonRun p).clipboard = some t) := by
  have hUPnotcap : "UPLOADING" ∉ capStatuses p := by
    intro h
    rcases capStatuses_mem p _ h with h | h | h | h <;> exact absurd h (by decide)
  have hCOPnotcap : "COPIED" ∉ capStatuses p := by
    intro h
    rcases capStatuses_mem p _ h with h | h | h | h <;> exact absurd h (by decide)
  have hsNA : ¬ (capBuf p).size > 0 →
      statuses p = "CONNECTING" :: (capStatuses p ++ ["PROCESSING", "NO_AUDIO"]) := by
    intro hb
    rw [statuses, daemonRun_no_audio p hb]
    simp [capStatuses]
  refine ⟨?_, ?_, ?_⟩
  · intro hUp
    by_cases hb : (capBuf p).size > 0
    · constructor
      · rw [daemonRun_buf]; exact hb
      · obtain ⟨post, hs⟩ := statuses_shape p
        rw [hs]; simp
    · exfalso
      rw [hsNA hb] at hUp
      rcases List.mem_cons.mp hUp with h | h
      · exact absurd h (by decide)
      · rcases List.mem_append.mp h with h | h
        · exact hUPnotcap h
        · exact absurd h (by decide)
  · intro hb0
    have hb : ¬ (capBuf p).size > 0 := by
      rw [daemonRun_buf] at hb0
      omega
    have hd := daemonRun_no_audio p hb
    refine ⟨by rw [hd], ?_, ?_⟩
    · intro hUp
      rw [hsNA hb] at hUp
      rcases List.mem_cons.mp hUp with h | h
      · exact absurd h (by decide)
      · rcases List.mem_append.mp h with h | h
        · exact hUPnotcap h
        · exact absurd h (by decide)
    · rw [hsNA hb]
      have e : "CONNECTING" :: (capStatuses p ++ ["PROCESSING", "NO_AUDIO"])
          = ("CONNECTING" :: (capStatuses p ++ ["PROCESSING"])) ++ ["NO_AUDIO"] := by simp
      rw [e, List.getLast?_concat]
  · intro hCop
    by_cases hb : (capBuf p).size > 0
    · rcases hx : p.response.bind extract with _ | t
      · exfalso
        have hsF : statuses p
            = "CONNECTING" :: (capStatuses p ++ ["PROCESSING", "UPLOADING", "FAILED"]) := by
          rw [statuses, daemonRun_failed p hb hx]
          simp [capStatuses]
        rw [hsF] at hCop
        rcases List.mem_cons.mp hCop with h | h
        · exact absurd h (by decide)
        · rcases List.mem_append.mp h with h | h
          · exact hCOPnotcap h
          · exact absurd h (by decide)
      · have hsC : statuses p
            = "CONNECTING" :: (capStatuses p ++ ["PROCESSING", "UPLOADING", "COPIED"]) := by
          rw [statuses, daemonRun_copied p t hb hx]
          simp [capStatuses]
        refine ⟨by rw [hsC]; simp, ⟨t, rfl, ?_⟩⟩
        rw [daemonRun_copied p t hb hx]
    · exfalso
      rw [hsNA hb] at hCop
      rcases List.mem_cons.mp hCop with h | h
      · exact absurd h (by decide)
      · rcases List.mem_append.mp h with h | h
        · exact hCOPnotcap h
        · exact absurd h (by decide)

theorem c2_state_machine_witness :
    (daemonRun c2RunParams).buf.size > 0 ∧ "PROCESSING" ∈ statuses c2RunParams :=
  (c2_state_machine c2RunParams).1 (by decide)

/-- Claim C2, as stated, is false on the "non-empty extracted result"
conjunct: a session with captured audio whose backend response carries
an empty text field reaches COPIED although the extracted result is the
empty string. -/
theorem c2_counterexample :
    (daemonRun c2RunParams).buf.size > 0 ∧
    "COPIED" ∈ statuses c2RunParams ∧
    c2RunParams.response.bind extract = some "" := by
  refine ⟨by decide, by decide, by decide⟩

end VoiceTranscribe
